import Mathlib

/-!
Verification of the mcproto Dynamic Type Registry and Framed Transport layer.

Shallow embedding of `src/python/mcp/bsr.py`, `src/python/mcp/stdio.py`,
`src/python/mcp/config.py` and `src/python/mcp/registry.py`.

Python strings are modelled as Lean `String`, manipulated through their
underlying `List Char`; `pySplit` and `pyJoin` mirror Python's
`str.split(sep)` / `sep.join(parts)` for a one-character separator
(`"".split(sep) == [""]`, no collapsing of empty fields).
-/

/-- Python `s.split(sep)` for a single-character separator.
Always returns a non-empty list; `pySplit sep [] = [[]]`. -/
def pySplit (sep : Char) : List Char → List (List Char)
  | [] => [[]]
  | c :: cs =>
    match pySplit sep cs with
    | [] => [[]]
    | h :: t => if c = sep then [] :: h :: t else (c :: h) :: t

/-- Python `sep.join(parts)` for a single-character separator. -/
def pyJoin (sep : Char) : List (List Char) → List Char
  | [] => []
  | [x] => x
  | x :: xs => x ++ sep :: pyJoin sep xs

-- ## src/python/mcp/config.py

/-- Maximum message size, 32 MiB (`config.py` / `stdio.py`). -/
def MAX_MESSAGE_SIZE : Nat := 32 * 1024 * 1024

/-- Maximum number of descriptor sets kept in the Registry cache (`config.py`). -/
def MAX_REGISTRY_CACHE_SIZE : Nat := 100

-- ## src/python/mcp/bsr.py : BSRRef

/-- The fixed scheme marker required at the front of a BSR reference string. -/
def schemeMarker : List Char := "buf.build/".data

/-- A parsed BSR schema reference (`bsr.py`, class `BSRRef`). -/
structure BSRRef where
  owner : String
  repository : String
  message : String
  version : String
  deriving DecidableEq, Repr

/-- Embedding of `BSRRef.parse` (`bsr.py` lines 15-32).  Failure is the
`ValueError` message the Python code raises. -/
def BSRRef.parse (ref : String) : Except String BSRRef :=
  if ¬ schemeMarker.isPrefixOf ref.data then
    .error "Invalid BSR ref: must start with buf.build/"
  else
    let parts := pySplit '/' (ref.data.drop schemeMarker.length)
    if parts.length < 3 then
      .error "Invalid BSR ref: too few parts"
    else
      let owner := parts.getD 0 []
      let repository := parts.getD 1 []
      let rest := pyJoin '/' (parts.drop 2)
      let message_parts := pySplit ':' rest
      let message := message_parts.getD 0 []
      let version := if message_parts.length > 1 then message_parts.getD 1 [] else "main".data
      .ok ⟨owner.asString, repository.asString, message.asString, version.asString⟩

-- ## src/python/mcp/stdio.py

/-- The envelope carried on the wire.  `mcp_pb2.MCPMessage` is generated
protobuf code that is not part of the audited sources; modelled from the
spec: an opaque message identified with its faithful serialized byte
string (`SerializeToString` / `ParseFromString` are mutually inverse). -/
structure MCPMessage where
  data : List Nat
  deriving DecidableEq, Repr

def MCPMessage.serializeToString (m : MCPMessage) : List Nat := m.data

def MCPMessage.parseFromString (bs : List Nat) : MCPMessage := ⟨bs⟩

/-- Big-endian decode of a 4-byte length prefix (`struct.unpack(">I", b)`). -/
def beDecode (bs : List Nat) : Nat := bs.foldl (fun acc b => acc * 256 + b) 0

/-- Big-endian encode of a length as 4 bytes (`struct.pack(">I", n)`). -/
def bePack (n : Nat) : List Nat :=
  [n / 2 ^ 24 % 256, n / 2 ^ 16 % 256, n / 2 ^ 8 % 256, n % 256]

/-- The failure modes of `StdioReader.read_message`: the two `EOFError`s
and the oversize `ValueError` of `stdio.py`. -/
inductive ReadError where
  | incompleteLength
  | frameTooLarge (declared : Nat)
  | incompleteBody
  deriving DecidableEq, Repr

/-- Result of one `read_message` call: `endOfStream` models `return None`. -/
inductive ReadResult where
  | endOfStream
  | err (e : ReadError)
  | msg (m : MCPMessage)
  deriving DecidableEq, Repr

/-- Embedding of `StdioReader.read_message` (`stdio.py` lines 11-32).  The
stream is a byte list; the result is paired with the unconsumed remainder
of the stream. -/
def read_message (s : List Nat) : ReadResult × List Nat :=
  let len_buf := s.take 4
  if len_buf = [] then (.endOfStream, s.drop 4)
  else if len_buf.length < 4 then (.err .incompleteLength, s.drop 4)
  else
    let length := beDecode len_buf
    if length > MAX_MESSAGE_SIZE then (.err (.frameTooLarge length), s.drop 4)
    else
      let msg_buf := (s.drop 4).take length
      if msg_buf.length < length then (.err .incompleteBody, (s.drop 4).drop length)
      else (.msg (MCPMessage.parseFromString msg_buf), (s.drop 4).drop length)

/-- Embedding of `StdioWriter.write_message` (`stdio.py` lines 38-47): the
bytes appended to the output stream `out`. -/
def write_message (out : List Nat) (msg : MCPMessage) : List Nat :=
  let data := msg.serializeToString
  let len_buf := bePack data.length
  out ++ len_buf ++ data

-- ## src/python/mcp/registry.py

/-- A message definition inside a file (protobuf `DescriptorProto`). -/
structure DescriptorProto where
  name : String
  deriving DecidableEq, Repr

/-- A file of definitions (protobuf `FileDescriptorProto`): its file name,
its package, and its top-level message definitions. -/
structure FileDescriptorProto where
  name : String
  package : String
  message_type : List DescriptorProto
  deriving DecidableEq, Repr

/-- A fetched definition set (protobuf `FileDescriptorSet`). -/
structure FileDescriptorSet where
  file : List FileDescriptorProto
  deriving DecidableEq, Repr

/-- The fully-qualified name a message registers under:
`f"\x7bfd.package\x7d.\x7bmt.name\x7d" if fd.package else mt.name`. -/
def fullNameIn (fd : FileDescriptorProto) (mt : DescriptorProto) : String :=
  if fd.package ≠ "" then fd.package ++ "." ++ mt.name else mt.name

/-- The `DescriptorPool`: the files added so far, in insertion order. -/
abbrev DescriptorPool := List FileDescriptorProto

/-- `DescriptorPool.FindMessageTypeByName`: look a message up by its
fully-qualified name; `none` models the `KeyError`. -/
def FindMessageTypeByName (pool : DescriptorPool) (full_name : String) :
    Option DescriptorProto :=
  pool.findSome? (fun fd => fd.message_type.find? (fun mt => fullNameIn fd mt == full_name))

/-- `DescriptorPool.AddSerializedFile`: re-adding an identical file is a
no-op; a different file under an existing file name raises; and a file
whose registered message symbols collide with a symbol already registered
by a differently-named file raises as well (the pool's conflict check on
registration), so the whole file is rejected. -/
def AddSerializedFile (pool : DescriptorPool) (fd : FileDescriptorProto) :
    Except String DescriptorPool :=
  match pool.find? (fun g => g.name == fd.name) with
  | some g => if g = fd then .ok pool else .error "Conflict register"
  | none =>
    if pool.any (fun g => fd.message_type.any (fun mt =>
        g.message_type.any (fun mt2 => fullNameIn g mt2 == fullNameIn fd mt))) then
      .error "Conflict register"
    else .ok (pool ++ [fd])

/-- No registered message symbol of `g` coincides with one of `fd`. -/
def symbolsDisjoint (g fd : FileDescriptorProto) : Prop :=
  ∀ mt2 ∈ g.message_type, ∀ mt ∈ fd.message_type, fullNameIn g mt2 ≠ fullNameIn fd mt

/-- Result of `GetMessageClass`: a runtime handle determined by the
resolved full name and its descriptor (which determines decoding). -/
structure MessageClass where
  typeFullName : String
  descriptor : DescriptorProto
  deriving DecidableEq, Repr

/-- The `Exception` raised by `BSRClient.fetch_descriptor_set` on a
non-200 upstream response (`bsr.py` lines 56-58). -/
structure FetchError where
  status : Nat
  text : String
  deriving DecidableEq, Repr

/-- The exceptions `Registry.resolve` / `Registry.unpack` can raise:
`ValueError` from parsing, the upstream fetch `Exception`, and `KeyError`
from pool lookups. -/
inductive ResolveError where
  | malformed (msg : String)
  | fetchFailed (e : FetchError)
  | typeNotFound (name : String)
  deriving DecidableEq, Repr

/-- The `Registry` state: the descriptor pool (TypeCatalog) and the
bounded `repo_id ↦ FileDescriptorSet` cache (DescriptorCache), an assoc
list in insertion order mirroring the Python dict. -/
structure Registry where
  pool : DescriptorPool
  cache : List (String × FileDescriptorSet)
  deriving DecidableEq, Repr

/-- Python `repo_id in self.cache` / `self.cache[repo_id]` read. -/
def cacheGet (c : List (String × FileDescriptorSet)) (k : String) :
    Option FileDescriptorSet :=
  (c.find? (fun e => e.1 == k)).map (fun e => e.2)

/-- Python `self.cache[repo_id] = fds`: replace in place if the key is
present, append otherwise. -/
def cacheInsert (c : List (String × FileDescriptorSet)) (k : String)
    (v : FileDescriptorSet) : List (String × FileDescriptorSet) :=
  if (c.find? (fun e => e.1 == k)).isSome then
    c.map (fun e => if e.1 == k then (k, v) else e)
  else c ++ [(k, v)]

/-- Step 3 of `Registry.resolve` (lines 43-49): add every file of the set
to the pool, skipping files that fail to add. -/
def addFileDescriptors (pool : DescriptorPool) (fds : FileDescriptorSet) :
    DescriptorPool :=
  fds.file.foldl (fun p fd =>
    match AddSerializedFile p fd with
    | .ok p2 => p2
    | .error _ => p) pool

/-- Step 4 of `Registry.resolve` (lines 51-67): look the message up in the
pool obtained after inserting `fds`; on a miss run the name-variant
fallback loop over the files of `fds`.  When the fallback loop finds a
matching variant it calls `FindMessageTypeByName` again on that name
(line 63); its `KeyError` propagates. -/
def lookupAfterInsert (pool2 : DescriptorPool) (fds : FileDescriptorSet)
    (target : String) : Except ResolveError MessageClass :=
  match FindMessageTypeByName pool2 target with
  | some mt => .ok ⟨target, mt⟩
  | none =>
    match fds.file.findSome? (fun fd =>
        fd.message_type.find? (fun mt => fullNameIn fd mt == target)) with
    | some _ =>
      match FindMessageTypeByName pool2 target with
      | some mt => .ok ⟨target, mt⟩
      | none => .error (.typeNotFound target)
    | none => .error (.typeNotFound target)

/-- Steps 3-4 of `Registry.resolve` (lines 40-67), entered with the set
`fds` obtained from the cache or the fetch: insert the files into the
pool, then resolve the message class. -/
def resolveFromSet (st : Registry) (ref : BSRRef) (fds : FileDescriptorSet)
    (didFetch : Bool) : Except ResolveError MessageClass × Registry × Bool :=
  let pool2 := addFileDescriptors st.pool fds
  (lookupAfterInsert pool2 fds ref.message, { st with pool := pool2 }, didFetch)

/-- The cache key `f"\x7bref.owner\x7d/\x7bref.repository\x7d@\x7bref.version\x7d"`
(`registry.py` line 28). -/
def repoId (ref : BSRRef) : String :=
  ref.owner ++ "/" ++ ref.repository ++ "@" ++ ref.version

/-- Embedding of `Registry.resolve` (`registry.py` lines 17-67).  The
external collaborator `BSRClient.fetch_descriptor_set` is the parameter
`fetch`.  Returns the result, the new registry state, and whether a fetch
was performed. -/
def Registry.resolve (fetch : BSRRef → Except FetchError FileDescriptorSet)
    (st : Registry) (ref_str : String) :
    Except ResolveError MessageClass × Registry × Bool :=
  match BSRRef.parse ref_str with
  | .error e => (.error (.malformed e), st, false)
  | .ok ref =>
    match FindMessageTypeByName st.pool ref.message with
    | some mt => (.ok ⟨ref.message, mt⟩, st, false)
    | none =>
      let repo_id := repoId ref
      match cacheGet st.cache repo_id with
      | some fds => resolveFromSet st ref fds false
      | none =>
        let cache1 := if st.cache.length ≥ MAX_REGISTRY_CACHE_SIZE then [] else st.cache
        match fetch ref with
        | .error e => (.error (.fetchFailed e), { st with cache := cache1 }, true)
        | .ok fds =>
          resolveFromSet { st with cache := cacheInsert cache1 repo_id fds } ref fds true

/-- A tagged opaque value (`google.protobuf.any_pb2.Any`). -/
structure AnyMsg where
  type_url : String
  value : List Nat
  deriving DecidableEq, Repr

/-- Result of `unpack`: an instance of the resolved class holding the
bytes decoded as that type. -/
structure DecodedInstance where
  cls : MessageClass
  data : List Nat
  deriving DecidableEq, Repr

/-- Embedding of `Registry.unpack` (`registry.py` lines 69-79):
`type_url.split('/')[-1]`, pool lookup, decode.  It takes no `fetch`
collaborator and returns no new state: it cannot fetch and leaves the
pool and cache untouched. -/
def Registry.unpack (st : Registry) (any_msg : AnyMsg) :
    Except ResolveError DecodedInstance :=
  let full_name := ((pySplit '/' any_msg.type_url.data).getLastD []).asString
  match FindMessageTypeByName st.pool full_name with
  | none => .error (.typeNotFound full_name)
  | some mt => .ok ⟨⟨full_name, mt⟩, any_msg.value⟩

/-- A whole sequence of `resolve` calls, threading the registry state. -/
def resolveSeq (fetch : BSRRef → Except FetchError FileDescriptorSet)
    (st : Registry) (refs : List String) : Registry :=
  refs.foldl (fun s r => (Registry.resolve fetch s r).2.1) st

-- ## Concrete example data used by counterexamples and witnesses

/-- A file descriptor carrying `acme.tools.v1.WebSearchRequest`. -/
def wsFile : FileDescriptorProto :=
  ⟨"acme/tools/search.proto", "acme.tools.v1", [⟨"WebSearchRequest"⟩]⟩

/-- A fetched definition set containing exactly `wsFile`. -/
def wsFds : FileDescriptorSet := ⟨[wsFile]⟩

/-- A fetch collaborator that always succeeds with `wsFds`. -/
def okFetch : BSRRef → Except FetchError FileDescriptorSet := fun _ => .ok wsFds

/-- A fetch collaborator that always fails with an upstream 500. -/
def badFetch : BSRRef → Except FetchError FileDescriptorSet :=
  fun _ => .error ⟨500, "boom"⟩

/-- A DescriptorCache holding exactly `MAX_REGISTRY_CACHE_SIZE` distinct
entries, i.e. a cache at capacity. -/
def fullCache : List (String × FileDescriptorSet) :=
  (List.range MAX_REGISTRY_CACHE_SIZE).map (fun i => ("k" ++ toString i, ⟨[]⟩))

/-- A file already in the pool registering `acme.tools.v1.Other`. -/
def otherFile : FileDescriptorProto :=
  ⟨"acme/tools/other.proto", "acme.tools.v1", [⟨"Other"⟩]⟩

/-- A fetched file with a fresh name whose symbols collide with
`otherFile` (`acme.tools.v1.Other`) while also carrying the wanted
`acme.tools.v1.WebSearchRequest`. -/
def collideFile : FileDescriptorProto :=
  ⟨"acme/tools/collide.proto", "acme.tools.v1", [⟨"Other"⟩, ⟨"WebSearchRequest"⟩]⟩

/-- A fetch collaborator that always succeeds with `collideFile`. -/
def collideFetch : BSRRef → Except FetchError FileDescriptorSet :=
  fun _ => .ok ⟨[collideFile]⟩

-- ## Helper lemmas on pySplit / parse

theorem pySplit_ne_nil (sep : Char) (s : List Char) : pySplit sep s ≠ [] := by
  cases s with
  | nil => simp [pySplit]
  | cons c cs =>
    simp only [pySplit]
    cases pySplit sep cs with
    | nil => simp
    | cons h t => dsimp only; split <;> simp

theorem pySplit_length_one_iff (sep : Char) (s : List Char) :
    (pySplit sep s).length = 1 ↔ sep ∉ s := by
  induction s with
  | nil => simp [pySplit]
  | cons c cs ih =>
    rcases hcs : pySplit sep cs with _ | ⟨h, t⟩
    · exact absurd hcs (pySplit_ne_nil sep cs)
    · rw [hcs] at ih
      simp only [pySplit, hcs]
      by_cases hc : c = sep
      · subst hc
        simp
      · rw [if_neg hc]
        simp only [List.length_cons] at ih ⊢
        rw [List.mem_cons]
        constructor
        · intro hl hmem
          rcases hmem with hmem | hmem
          · exact hc hmem.symm
          · exact (ih.mp hl) hmem
        · intro hmem
          exact ih.mpr (fun hx => hmem (Or.inr hx))

/-- The success branch of `BSRRef.parse`, spelt out. -/
theorem parse_ok_of (r : String)
    (hpre : schemeMarker.isPrefixOf r.data = true)
    (hlen : 3 ≤ (pySplit '/' (r.data.drop schemeMarker.length)).length) :
    BSRRef.parse r =
      .ok ⟨((pySplit '/' (r.data.drop schemeMarker.length)).getD 0 []).asString,
           ((pySplit '/' (r.data.drop schemeMarker.length)).getD 1 []).asString,
           (((pySplit ':' (pyJoin '/'
              ((pySplit '/' (r.data.drop schemeMarker.length)).drop 2)))).getD 0 []).asString,
           (if 1 < ((pySplit ':' (pyJoin '/'
              ((pySplit '/' (r.data.drop schemeMarker.length)).drop 2)))).length
            then ((pySplit ':' (pyJoin '/'
              ((pySplit '/' (r.data.drop schemeMarker.length)).drop 2)))).getD 1 []
            else "main".data).asString⟩ := by
  unfold BSRRef.parse
  rw [if_neg (by simp [hpre]), if_neg (by omega)]

-- ## Claims about BSRRef.parse

/-- C6: `BSRRef.parse` fails with the `MalformedReference` `ValueError`
for every input lacking the scheme prefix and for every input splitting
into fewer than three path segments after the prefix; for every
well-formed input whose post-prefix remainder carries no `:version`
suffix (no `:` at all) the version defaults to `"main"`; and the example
reference parses to the stated fields.  `parse` is a Lean function, hence
pure. -/
theorem parse_malformed_and_default_version :
    (∀ r : String, ¬ schemeMarker.isPrefixOf r.data = true →
      BSRRef.parse r = .error "Invalid BSR ref: must start with buf.build/") ∧
    (∀ r : String,
      (pySplit '/' (r.data.drop schemeMarker.length)).length < 3 →
      BSRRef.parse r = .error "Invalid BSR ref: too few parts" ∨
      BSRRef.parse r = .error "Invalid BSR ref: must start with buf.build/") ∧
    (∀ r : String, ∀ ref : BSRRef,
      ':' ∉ pyJoin '/' ((pySplit '/' (r.data.drop schemeMarker.length)).drop 2) →
      BSRRef.parse r = .ok ref → ref.version = "main") ∧
    BSRRef.parse "buf.build/acme/tools/acme.tools.v1.WebSearchRequest:v1" =
      .ok ⟨"acme", "tools", "acme.tools.v1.WebSearchRequest", "v1"⟩ := by
  refine ⟨?_, ?_, ?_, by rfl⟩
  · intro r hpre
    unfold BSRRef.parse
    rw [if_pos (by simpa using hpre)]
  · intro r hlen
    by_cases hpre : schemeMarker.isPrefixOf r.data = true
    · left
      unfold BSRRef.parse
      rw [if_neg (by simp [hpre]), if_pos hlen]
    · right
      unfold BSRRef.parse
      rw [if_pos (by simpa using hpre)]
  · intro r ref hcolon hok
    by_cases hpre : schemeMarker.isPrefixOf r.data = true
    · by_cases hlen : 3 ≤ (pySplit '/' (r.data.drop schemeMarker.length)).length
      · rw [parse_ok_of r hpre hlen] at hok
        have hone : ((pySplit ':' (pyJoin '/'
            ((pySplit '/' (r.data.drop schemeMarker.length)).drop 2)))).length = 1 :=
          (pySplit_length_one_iff _ _).mpr hcolon
        cases hok
        rw [if_neg (by omega)]
        rfl
      · exfalso
        unfold BSRRef.parse at hok
        rw [if_neg (by simp [hpre]), if_pos (by omega)] at hok
        exact Except.noConfusion hok
    · exfalso
      unfold BSRRef.parse at hok
      rw [if_pos (by simpa using hpre)] at hok
      exact Except.noConfusion hok

theorem parse_malformed_and_default_version_witness :
    BSRRef.parse "nope" = .error "Invalid BSR ref: must start with buf.build/" ∧
    (BSRRef.parse "buf.build/a/b" = .error "Invalid BSR ref: too few parts" ∨
      BSRRef.parse "buf.build/a/b" = .error "Invalid BSR ref: must start with buf.build/") ∧
    (BSRRef.mk "a" "b" "c" "main").version = "main" :=
  ⟨parse_malformed_and_default_version.1 "nope" (by decide),
   parse_malformed_and_default_version.2.1 "buf.build/a/b" (by decide),
   parse_malformed_and_default_version.2.2.1 "buf.build/a/b/c"
     ⟨"a", "b", "c", "main"⟩ (by decide) (by rfl)⟩

/-- C10: whenever the post-prefix remainder after the first two path
segments contains at least one `:`, `parse` succeeds taking the text
between the first and the second `:` as the version — even when that text
is empty — and discards anything after a second `:`; concretely, a
reference ending in `:` parses with version `""` (not `"main"`), and
`":v1:junk"` parses with version `"v1"`. -/
theorem parse_version_between_colons :
    (∀ r : String,
      schemeMarker.isPrefixOf r.data = true →
      3 ≤ (pySplit '/' (r.data.drop schemeMarker.length)).length →
      ':' ∈ pyJoin '/' ((pySplit '/' (r.data.drop schemeMarker.length)).drop 2) →
      ∃ ref : BSRRef, BSRRef.parse r = .ok ref ∧
        ref.version = (((pySplit ':' (pyJoin '/'
          ((pySplit '/' (r.data.drop schemeMarker.length)).drop 2)))).getD 1 []).asString) ∧
    BSRRef.parse "buf.build/a/b/c:" = .ok ⟨"a", "b", "c", ""⟩ ∧
    BSRRef.parse "buf.build/a/b/c:v1:junk" = .ok ⟨"a", "b", "c", "v1"⟩ := by
  refine ⟨?_, by rfl, by rfl⟩
  intro r hpre hlen hcolon
  refine ⟨_, parse_ok_of r hpre hlen, ?_⟩
  have hne : ((pySplit ':' (pyJoin '/'
      ((pySplit '/' (r.data.drop schemeMarker.length)).drop 2)))).length ≠ 1 :=
    fun h1 => (pySplit_length_one_iff _ _).mp h1 hcolon
  have hge : 1 ≤ ((pySplit ':' (pyJoin '/'
      ((pySplit '/' (r.data.drop schemeMarker.length)).drop 2)))).length :=
    List.length_pos.mpr (pySplit_ne_nil _ _)
  rw [if_pos (by omega)]

theorem parse_version_between_colons_witness :
    ∃ ref : BSRRef, BSRRef.parse "buf.build/a/b/c:v9:x" = .ok ref ∧
      ref.version = "v9" :=
  parse_version_between_colons.1 "buf.build/a/b/c:v9:x"
    (by decide) (by decide) (by decide)

-- ## Helper lemmas on the frame codec

theorem bePack_length (n : Nat) : (bePack n).length = 4 := rfl

theorem beDecode_bePack (n : Nat) (h : n < 2 ^ 32) : beDecode (bePack n) = n := by
  simp only [beDecode, bePack, List.foldl]
  have h24 : (2 : Nat) ^ 24 = 16777216 := by norm_num
  have h16 : (2 : Nat) ^ 16 = 65536 := by norm_num
  have h8 : (2 : Nat) ^ 8 = 256 := by norm_num
  have h32 : (2 : Nat) ^ 32 = 4294967296 := by norm_num
  rw [h24, h16, h8] ; rw [h32] at h
  omega

-- ## Claims about the frame codec

/-- C4: frame round trip — writing any message whose serialized length is
within the 32 MiB limit and reading the resulting stream yields the same
message back, consuming exactly the frame.  (`mcp_pb2.MCPMessage`
serialization itself is generated code outside the audited sources and is
modelled from the spec as a faithful encoding.) -/
theorem write_read_roundtrip (m : MCPMessage) (rest : List Nat)
    (h : m.serializeToString.length ≤ MAX_MESSAGE_SIZE) :
    read_message (write_message [] m ++ rest) = (.msg m, rest) := by
  obtain ⟨data⟩ := m
  simp only [MCPMessage.serializeToString] at h
  have h32 : data.length < 2 ^ 32 := by
    have hmax : MAX_MESSAGE_SIZE < 2 ^ 32 := by norm_num [MAX_MESSAGE_SIZE]
    omega
  show read_message (([] ++ bePack data.length ++ data) ++ rest) = _
  rw [List.nil_append, List.append_assoc]
  unfold read_message
  rw [show (4 : Nat) = (bePack data.length).length from rfl]
  rw [List.take_left, List.drop_left]
  rw [if_neg (by simp [bePack]), if_neg (by simp [bePack_length])]
  rw [beDecode_bePack data.length h32]
  rw [if_neg (by omega)]
  rw [List.take_left, List.drop_left]
  rw [if_neg (lt_irrefl _)]
  rfl

/-- C5: complete classification of `read_message` on every input stream:
empty stream gives `endOfStream` (not an error); 1-3 bytes then EOF give
`incompleteLength`; a 4-byte prefix above 32 MiB gives `frameTooLarge`
with the body untouched; a declared length longer than the remaining
bytes gives `incompleteBody`; otherwise exactly the declared number of
body bytes is consumed and decoded. -/
theorem read_message_classification :
    read_message [] = (.endOfStream, []) ∧
    (∀ s : List Nat, 1 ≤ s.length → s.length ≤ 3 →
      read_message s = (.err .incompleteLength, [])) ∧
    (∀ b0 b1 b2 b3 : Nat, ∀ tail : List Nat,
      MAX_MESSAGE_SIZE < beDecode [b0, b1, b2, b3] →
      read_message (b0 :: b1 :: b2 :: b3 :: tail) =
        (.err (.frameTooLarge (beDecode [b0, b1, b2, b3])), tail)) ∧
    (∀ b0 b1 b2 b3 : Nat, ∀ tail : List Nat,
      beDecode [b0, b1, b2, b3] ≤ MAX_MESSAGE_SIZE →
      tail.length < beDecode [b0, b1, b2, b3] →
      read_message (b0 :: b1 :: b2 :: b3 :: tail) = (.err .incompleteBody, [])) ∧
    (∀ b0 b1 b2 b3 : Nat, ∀ tail : List Nat,
      beDecode [b0, b1, b2, b3] ≤ MAX_MESSAGE_SIZE →
      beDecode [b0, b1, b2, b3] ≤ tail.length →
      read_message (b0 :: b1 :: b2 :: b3 :: tail) =
        (.msg ⟨tail.take (beDecode [b0, b1, b2, b3])⟩,
         tail.drop (beDecode [b0, b1, b2, b3]))) := by
  refine ⟨by rfl, ?_, ?_, ?_, ?_⟩
  · intro s h1 h3
    match s, h1, h3 with
    | [a], _, _ => rfl
    | [a, b], _, _ => rfl
    | [a, b, c], _, _ => rfl
  · intro b0 b1 b2 b3 tail hbig
    unfold read_message
    simp only [List.take_succ_cons, List.take_zero, List.drop_succ_cons, List.drop_zero]
    rw [if_neg (by simp), if_neg (by simp), if_pos hbig]
  · intro b0 b1 b2 b3 tail hsmall hshort
    unfold read_message
    simp only [List.take_succ_cons, List.take_zero, List.drop_succ_cons, List.drop_zero]
    rw [if_neg (by simp), if_neg (by simp), if_neg (by omega),
      if_pos (by simp [List.length_take] ; omega)]
    simp [List.drop_eq_nil_of_le (le_of_lt hshort)]
  · intro b0 b1 b2 b3 tail hsmall hlong
    unfold read_message
    simp only [List.take_succ_cons, List.take_zero, List.drop_succ_cons, List.drop_zero]
    rw [if_neg (by simp), if_neg (by simp), if_neg (by omega),
      if_neg (by simp [List.length_take] ; omega)]
    rfl

theorem read_message_classification_witness :
    read_message [9] = (.err .incompleteLength, []) ∧
    read_message [255, 0, 0, 0] = (.err (.frameTooLarge (beDecode [255, 0, 0, 0])), []) ∧
    read_message [0, 0, 0, 5, 1, 2] = (.err .incompleteBody, []) ∧
    read_message [0, 0, 0, 2, 7, 8, 9] = (.msg ⟨[7, 8]⟩, [9]) :=
  ⟨read_message_classification.2.1 [9] (by decide) (by decide),
   read_message_classification.2.2.1 255 0 0 0 [] (by decide),
   read_message_classification.2.2.2.1 0 0 0 5 [1, 2] (by decide) (by decide),
   read_message_classification.2.2.2.2 0 0 0 2 [7, 8, 9] (by decide) (by decide)⟩

/-- C9: any frame written for a message of fewer than 16 MiB serialized
bytes starts with the byte `0x00`, hence is distinguishable by its first
byte from a JSON text record starting with a printable character
(any byte ≥ `0x20`). -/
theorem write_message_leading_byte (m : MCPMessage)
    (h : m.serializeToString.length < 2 ^ 24) :
    (write_message [] m).head? = some 0 ∧
    (∀ b : Nat, 0x20 ≤ b → (write_message [] m).head? ≠ some b) := by
  have h24 : (2 : Nat) ^ 24 = 16777216 := by norm_num
  rw [h24] at h
  have hz : m.serializeToString.length / 16777216 % 256 = 0 := by omega
  have hh : (write_message [] m).head? = some 0 := by
    show (([] ++ bePack m.serializeToString.length ++ m.serializeToString)).head? = some 0
    rw [List.nil_append]
    simp [bePack, hz]
  refine ⟨hh, ?_⟩
  intro b hb hcontra
  rw [hh] at hcontra
  have : (0 : Nat) = b := by injection hcontra
  omega

theorem write_message_leading_byte_witness :
    (write_message [] ⟨[7, 8]⟩).head? = some 0 ∧
    (∀ b : Nat, 0x20 ≤ b → (write_message [] ⟨[7, 8]⟩).head? ≠ some b) :=
  write_message_leading_byte ⟨[7, 8]⟩ (by decide)

theorem write_read_roundtrip_witness :
    read_message (write_message [] ⟨[7, 8]⟩ ++ [9]) = (.msg ⟨[7, 8]⟩, [9]) :=
  write_read_roundtrip ⟨[7, 8]⟩ [9] (by decide)

-- ## Helper lemmas on the registry

theorem cacheGet_nil (k : String) : cacheGet [] k = none := rfl

theorem cacheInsert_of_get_none {c : List (String × FileDescriptorSet)}
    {k : String} {v : FileDescriptorSet} (h : cacheGet c k = none) :
    cacheInsert c k v = c ++ [(k, v)] := by
  unfold cacheGet at h
  rw [Option.map_eq_none'] at h
  unfold cacheInsert
  rw [h]
  rfl

theorem cacheInsert_length_le (c : List (String × FileDescriptorSet))
    (k : String) (v : FileDescriptorSet) :
    (cacheInsert c k v).length ≤ c.length + 1 := by
  unfold cacheInsert
  split
  · simp
  · simp

theorem resolveFromSet_cache (st : Registry) (ref : BSRRef)
    (fds : FileDescriptorSet) (b : Bool) :
    (resolveFromSet st ref fds b).2.1.cache = st.cache := rfl

theorem resolveFromSet_snd (st : Registry) (ref : BSRRef)
    (fds : FileDescriptorSet) (b : Bool) :
    (resolveFromSet st ref fds b).2 =
      ({ st with pool := addFileDescriptors st.pool fds }, b) := rfl

theorem lookupAfterInsert_ok {pool2 : DescriptorPool} {fds : FileDescriptorSet}
    {target : String} {h : MessageClass}
    (he : lookupAfterInsert pool2 fds target = .ok h) :
    h.typeFullName = target ∧ FindMessageTypeByName pool2 target = some h.descriptor := by
  unfold lookupAfterInsert at he
  rcases hf : FindMessageTypeByName pool2 target with _ | mt
  · rw [hf] at he
    rcases hfs : fds.file.findSome? (fun fd =>
        fd.message_type.find? (fun mt => fullNameIn fd mt == target)) with _ | x
    · rw [hfs] at he
      dsimp only at he
      exact Except.noConfusion he
    · rw [hfs] at he
      dsimp only at he
      exact Except.noConfusion he
  · rw [hf] at he
    dsimp only at he
    have hh := Except.ok.inj he
    exact ⟨by rw [← hh], by rw [← hh]⟩

theorem resolve_cache_length_le (fetch : BSRRef → Except FetchError FileDescriptorSet)
    (st : Registry) (rs : String)
    (h : st.cache.length ≤ MAX_REGISTRY_CACHE_SIZE) :
    (Registry.resolve fetch st rs).2.1.cache.length ≤ MAX_REGISTRY_CACHE_SIZE := by
  unfold Registry.resolve
  rcases BSRRef.parse rs with e | ref
  · exact h
  · dsimp only
    rcases FindMessageTypeByName st.pool ref.message with _ | mt
    · dsimp only
      rcases cacheGet st.cache (repoId ref) with _ | fds
      · dsimp only
        rcases fetch ref with e | fds
        · dsimp only
          split
          · simp [MAX_REGISTRY_CACHE_SIZE]
          · exact h
        · dsimp only
          rw [resolveFromSet_cache]
          dsimp only
          split
          · have := cacheInsert_length_le ([] : List (String × FileDescriptorSet))
              (repoId ref) fds
            simp only [List.length_nil] at this
            have h100 : 0 < MAX_REGISTRY_CACHE_SIZE := by norm_num [MAX_REGISTRY_CACHE_SIZE]
            omega
          · have := cacheInsert_length_le st.cache (repoId ref) fds
            rename_i hlt
            omega
      · dsimp only
        rw [resolveFromSet_cache]
        exact h
    · exact h

theorem resolveSeq_cache_length_le (fetch : BSRRef → Except FetchError FileDescriptorSet)
    (refs : List String) :
    ∀ st : Registry, st.cache.length ≤ MAX_REGISTRY_CACHE_SIZE →
      (resolveSeq fetch st refs).cache.length ≤ MAX_REGISTRY_CACHE_SIZE := by
  induction refs with
  | nil => exact fun st h => h
  | cons r rest ih =>
    intro st h
    exact ih (Registry.resolve fetch st r).2.1 (resolve_cache_length_le fetch st r h)

theorem resolve_ok (fetch : BSRRef → Except FetchError FileDescriptorSet)
    (st : Registry) (rs : String) (h : MessageClass) (st1 : Registry) (b : Bool)
    (hr : Registry.resolve fetch st rs = (.ok h, st1, b)) :
    ∃ ref, BSRRef.parse rs = .ok ref ∧ h.typeFullName = ref.message ∧
      FindMessageTypeByName st1.pool ref.message = some h.descriptor := by
  unfold Registry.resolve at hr
  rcases hp : BSRRef.parse rs with e | ref
  · rw [hp] at hr
    simp at hr
  · rw [hp] at hr
    dsimp only at hr
    refine ⟨ref, rfl, ?_⟩
    rcases hf : FindMessageTypeByName st.pool ref.message with _ | mt
    · rw [hf] at hr
      dsimp only at hr
      rcases hc : cacheGet st.cache (repoId ref) with _ | fds
      · rw [hc] at hr
        dsimp only at hr
        rcases hfe : fetch ref with e | fds
        · rw [hfe] at hr
          simp at hr
        · rw [hfe] at hr
          dsimp only at hr
          have hfst := congrArg Prod.fst hr
          have hsnd := congrArg (fun p =>
            (p : Except ResolveError MessageClass × Registry × Bool).2.1) hr
          dsimp only [resolveFromSet] at hfst hsnd
          obtain ⟨hn, hd⟩ := lookupAfterInsert_ok hfst
          refine ⟨hn, ?_⟩
          rw [← hsnd]
          exact hd
      · rw [hc] at hr
        have hfst := congrArg Prod.fst hr
        have hsnd := congrArg (fun p =>
          (p : Except ResolveError MessageClass × Registry × Bool).2.1) hr
        dsimp only [resolveFromSet] at hfst hsnd
        obtain ⟨hn, hd⟩ := lookupAfterInsert_ok hfst
        refine ⟨hn, ?_⟩
        rw [← hsnd]
        exact hd
    · rw [hf] at hr
      have hfst := congrArg Prod.fst hr
      have hsnd := congrArg (fun p =>
        (p : Except ResolveError MessageClass × Registry × Bool).2.1) hr
      dsimp only at hfst hsnd
      have hh := Except.ok.inj hfst
      subst hh
      subst hsnd
      exact ⟨rfl, hf⟩

-- ## Claims about the Registry cache (C1, C2)

/-- C1: the DescriptorCache never holds more than `MAX_REGISTRY_CACHE_SIZE`
(100) entries at any observation point, for every sequence of
`Registry.resolve` calls starting within the bound; and on an insert when
the cache is at capacity all entries are cleared before the new entry is
added, leaving exactly the singleton cache.  Cache maintenance itself is a
total function: clearing and inserting cannot fail. -/
theorem cache_bounded (fetch : BSRRef → Except FetchError FileDescriptorSet)
    (st : Registry) (h : st.cache.length ≤ MAX_REGISTRY_CACHE_SIZE) :
    (∀ refs : List String,
      (resolveSeq fetch st refs).cache.length ≤ MAX_REGISTRY_CACHE_SIZE) ∧
    (∀ rs ref fds, BSRRef.parse rs = .ok ref →
      FindMessageTypeByName st.pool ref.message = none →
      cacheGet st.cache (repoId ref) = none →
      st.cache.length = MAX_REGISTRY_CACHE_SIZE →
      fetch ref = .ok fds →
      (Registry.resolve fetch st rs).2.1.cache = [(repoId ref, fds)]) := by
  constructor
  · intro refs
    exact resolveSeq_cache_length_le fetch refs st h
  · intro rs ref fds hp hpool hc hlen hfe
    unfold Registry.resolve
    rw [hp]
    dsimp only
    rw [hpool]
    dsimp only
    rw [hc]
    dsimp only
    rw [hfe]
    dsimp only
    rw [resolveFromSet_cache]
    dsimp only
    rw [if_pos (by omega)]
    rw [cacheInsert_of_get_none (cacheGet_nil (repoId ref))]
    rfl

theorem cache_bounded_witness :
    (resolveSeq okFetch ⟨[], fullCache⟩ ["buf.build/a/b/c"]).cache.length ≤
      MAX_REGISTRY_CACHE_SIZE ∧
    (Registry.resolve okFetch ⟨[], fullCache⟩ "buf.build/a/b/c").2.1.cache =
      [("a/b@main", wsFds)] :=
  ⟨(cache_bounded okFetch ⟨[], fullCache⟩ (by decide)).1 ["buf.build/a/b/c"],
   (cache_bounded okFetch ⟨[], fullCache⟩ (by decide)).2 "buf.build/a/b/c"
     ⟨"a", "b", "c", "main"⟩ wsFds (by rfl) (by rfl) (by rfl) (by rfl) (by rfl)⟩

/-- C2 (counterexample): a failing fetch does not always leave the
DescriptorCache as it was — starting from a full cache (100 entries), a
resolve whose fetch fails returns with the cache cleared, because the
at-capacity clear happens before the fetch is attempted. -/
theorem resolve_fetch_failure_not_cache_preserving :
    (Registry.resolve badFetch ⟨[], fullCache⟩ "buf.build/a/b/c").1 =
      .error (.fetchFailed ⟨500, "boom"⟩) ∧
    (Registry.resolve badFetch ⟨[], fullCache⟩ "buf.build/a/b/c").2.1.cache = [] ∧
    fullCache ≠ [] :=
  ⟨by rfl, by rfl, by decide⟩

/-- C2 (amended): on a cache miss the fetched set is stored only after the
fetch succeeds, and a failing fetch is propagated carrying the upstream
error; but the cache is left as it was only when it was below capacity —
when it was at capacity it has already been cleared before the fetch. -/
theorem resolve_fetch_store_discipline :
    (∀ (fetch : BSRRef → Except FetchError FileDescriptorSet)
       (st : Registry) (rs : String) (ref : BSRRef) (e : FetchError),
      BSRRef.parse rs = .ok ref →
      FindMessageTypeByName st.pool ref.message = none →
      cacheGet st.cache (repoId ref) = none →
      fetch ref = .error e →
      Registry.resolve fetch st rs =
        (.error (.fetchFailed e),
         { st with cache :=
            if st.cache.length ≥ MAX_REGISTRY_CACHE_SIZE then [] else st.cache },
         true)) ∧
    (∀ (fetch : BSRRef → Except FetchError FileDescriptorSet)
       (st : Registry) (rs : String) (ref : BSRRef) (fds : FileDescriptorSet),
      BSRRef.parse rs = .ok ref →
      FindMessageTypeByName st.pool ref.message = none →
      cacheGet st.cache (repoId ref) = none →
      fetch ref = .ok fds →
      (Registry.resolve fetch st rs).2.1.cache =
        (if st.cache.length ≥ MAX_REGISTRY_CACHE_SIZE then [] else st.cache) ++
          [(repoId ref, fds)]) := by
  constructor
  · intro fetch st rs ref e hp hpool hc hfe
    unfold Registry.resolve
    rw [hp]
    dsimp only
    rw [hpool]
    dsimp only
    rw [hc]
    dsimp only
    rw [hfe]
  · intro fetch st rs ref fds hp hpool hc hfe
    have hget1 : cacheGet
        (if st.cache.length ≥ MAX_REGISTRY_CACHE_SIZE then [] else st.cache)
        (repoId ref) = none := by
      split
      · rfl
      · exact hc
    unfold Registry.resolve
    rw [hp]
    dsimp only
    rw [hpool]
    dsimp only
    rw [hc]
    dsimp only
    rw [hfe]
    dsimp only
    rw [resolveFromSet_cache]
    dsimp only
    exact cacheInsert_of_get_none hget1

theorem resolve_fetch_store_discipline_witness :
    Registry.resolve badFetch ⟨[], []⟩ "buf.build/a/b/c" =
      (.error (.fetchFailed ⟨500, "boom"⟩), ⟨[], []⟩, true) ∧
    (Registry.resolve okFetch ⟨[], []⟩ "buf.build/a/b/c").2.1.cache =
      [("a/b@main", wsFds)] :=
  ⟨resolve_fetch_store_discipline.1 badFetch ⟨[], []⟩ "buf.build/a/b/c"
     ⟨"a", "b", "c", "main"⟩ ⟨500, "boom"⟩ (by rfl) (by rfl) (by rfl) (by rfl),
   resolve_fetch_store_discipline.2 okFetch ⟨[], []⟩ "buf.build/a/b/c"
     ⟨"a", "b", "c", "main"⟩ wsFds (by rfl) (by rfl) (by rfl) (by rfl)⟩

-- ## Claims about name resolution (C3)

theorem addFiles_fresh (l : List FileDescriptorProto) :
    ∀ pool : DescriptorPool,
    (∀ fd ∈ l, ∀ g ∈ pool, g.name ≠ fd.name) →
    (l.map FileDescriptorProto.name).Nodup →
    (∀ fd ∈ l, ∀ g ∈ pool, symbolsDisjoint g fd) →
    l.Pairwise symbolsDisjoint →
    l.foldl (fun p fd =>
      match AddSerializedFile p fd with
      | .ok p2 => p2
      | .error _ => p) pool = pool ++ l := by
  induction l with
  | nil =>
    intro pool _ _ _ _
    simp
  | cons fd rest ih =>
    intro pool hfresh hnodup hsym hpair
    have hfind : pool.find? (fun g => g.name == fd.name) = none := by
      rw [List.find?_eq_none]
      intro g hg
      simpa using hfresh fd (List.mem_cons_self fd rest) g hg
    have hconf : (pool.any (fun g => fd.message_type.any (fun mt =>
        g.message_type.any (fun mt2 => fullNameIn g mt2 == fullNameIn fd mt)))) = false := by
      rw [List.any_eq_false]
      intro g hg
      rw [Bool.not_eq_true, List.any_eq_false]
      intro mt hmt
      rw [Bool.not_eq_true, List.any_eq_false]
      intro mt2 hmt2
      simpa using hsym fd (List.mem_cons_self fd rest) g hg mt2 hmt2 mt hmt
    have hstep : AddSerializedFile pool fd = .ok (pool ++ [fd]) := by
      unfold AddSerializedFile
      rw [hfind, hconf]
      rfl
    rw [List.foldl_cons, hstep]
    dsimp only
    have hnodup2 : ((fd :: rest).map FileDescriptorProto.name).Nodup := hnodup
    rw [List.map_cons, List.nodup_cons] at hnodup2
    have hpair2 := List.pairwise_cons.mp hpair
    rw [ih (pool ++ [fd]) ?_ hnodup2.2 ?_ hpair2.2]
    · simp
    · intro fd2 h2 g hg
      rcases List.mem_append.mp hg with hg | hg
      · exact hfresh fd2 (List.mem_cons_of_mem fd h2) g hg
      · have hgfd : g = fd := by simpa using hg
        subst hgfd
        intro heq
        have hmem2 : fd2.name ∈ rest.map FileDescriptorProto.name :=
          List.mem_map_of_mem FileDescriptorProto.name h2
        rw [← heq] at hmem2
        exact hnodup2.1 hmem2
    · intro fd2 h2 g hg
      rcases List.mem_append.mp hg with hg | hg
      · exact hsym fd2 (List.mem_cons_of_mem fd h2) g hg
      · have hgfd : g = fd := by simpa using hg
        subst hgfd
        exact hpair2.1 fd2 h2

theorem addFileDescriptors_fresh (pool : DescriptorPool) (fds : FileDescriptorSet)
    (hfresh : ∀ fd ∈ fds.file, ∀ g ∈ pool, g.name ≠ fd.name)
    (hnodup : (fds.file.map FileDescriptorProto.name).Nodup)
    (hsym : ∀ fd ∈ fds.file, ∀ g ∈ pool, symbolsDisjoint g fd)
    (hpair : fds.file.Pairwise symbolsDisjoint) :
    addFileDescriptors pool fds = pool ++ fds.file :=
  addFiles_fresh fds.file pool hfresh hnodup hsym hpair

theorem FindMessageTypeByName_append_of_none (p1 p2 : DescriptorPool) (n : String)
    (h1 : FindMessageTypeByName p1 n = none) :
    FindMessageTypeByName (p1 ++ p2) n = FindMessageTypeByName p2 n := by
  unfold FindMessageTypeByName at h1 ⊢
  rw [List.findSome?_append, h1]
  rfl

theorem FindMessageTypeByName_of_mem (l : DescriptorPool) (n : String)
    (hmem : ∃ fd ∈ l, ∃ mt ∈ fd.message_type, fullNameIn fd mt = n) :
    ∃ mt, FindMessageTypeByName l n = some mt := by
  rcases hfs : FindMessageTypeByName l n with _ | mt
  · exfalso
    rcases hmem with ⟨fd, hfd, mt, hmt, hname⟩
    unfold FindMessageTypeByName at hfs
    rw [List.findSome?_eq_none_iff] at hfs
    have hnone := hfs fd hfd
    rw [List.find?_eq_none] at hnone
    exact hnone mt hmt (by simp [hname])
  · exact ⟨mt, rfl⟩

/-- C3 (counterexample): two concrete failures of the claim as stated.
First, the reverse reconciliation direction fails: a fetched set whose
message has file-relative (local) name equal to the reference typeName
`"WebSearchRequest"` but package-qualified registered name
`"acme.tools.v1.WebSearchRequest"` makes `resolve` raise `TypeNotFound`
instead of returning a handle.  Second, even in the package-qualified
direction a matching set can fail to resolve: when the fetched file's
symbols collide with a differently-named file already in the pool
(`acme.tools.v1.Other` registered by both), the whole file is skipped on
insertion, the retry finds nothing, and `resolve` raises `TypeNotFound`
although the set contains a message whose package-qualified name equals
the reference's typeName. -/
theorem resolve_file_relative_fails :
    (okFetch ⟨"acme", "tools", "WebSearchRequest", "main"⟩ = .ok wsFds ∧
      wsFds.file.map (fun fd => fd.message_type.map DescriptorProto.name) =
        [["WebSearchRequest"]] ∧
      (Registry.resolve okFetch ⟨[], []⟩
        "buf.build/acme/tools/WebSearchRequest").1 =
        .error (.typeNotFound "WebSearchRequest")) ∧
    (collideFetch ⟨"acme", "tools", "acme.tools.v1.WebSearchRequest", "main"⟩ =
        .ok ⟨[collideFile]⟩ ∧
      fullNameIn collideFile ⟨"WebSearchRequest"⟩ =
        "acme.tools.v1.WebSearchRequest" ∧
      (Registry.resolve collideFetch ⟨[otherFile], []⟩
        "buf.build/acme/tools/acme.tools.v1.WebSearchRequest").1 =
        .error (.typeNotFound "acme.tools.v1.WebSearchRequest")) :=
  ⟨⟨rfl, rfl, by rfl⟩, ⟨rfl, by rfl, by rfl⟩⟩

/-- C3 (amended): whenever the fetched set contains a message whose
package-qualified name (`"<package>.<localName>"`, or the bare local name
when the package is empty) equals the reference typeName — and the set's
files actually insert: file names and registered symbols fresh relative
to the pool and duplicate-free within the set (the counterexample's
collision case shows a colliding file is skipped wholesale and its types
stay unresolvable) — `resolve` returns a handle for that name rather than
`TypeNotFound`.  The reverse direction (file-relative reference typeName
against package-qualified definitions) is not reconciled. -/
theorem resolve_package_qualified (fetch : BSRRef → Except FetchError FileDescriptorSet)
    (st : Registry) (rs : String) (ref : BSRRef) (fds : FileDescriptorSet)
    (hp : BSRRef.parse rs = .ok ref)
    (hpool : FindMessageTypeByName st.pool ref.message = none)
    (hc : cacheGet st.cache (repoId ref) = none)
    (hf : fetch ref = .ok fds)
    (hfresh : ∀ fd ∈ fds.file, ∀ g ∈ st.pool, g.name ≠ fd.name)
    (hnodup : (fds.file.map FileDescriptorProto.name).Nodup)
    (hsym : ∀ fd ∈ fds.file, ∀ g ∈ st.pool, symbolsDisjoint g fd)
    (hpair : fds.file.Pairwise symbolsDisjoint)
    (hmem : ∃ fd ∈ fds.file, ∃ mt ∈ fd.message_type, fullNameIn fd mt = ref.message) :
    ∃ mt, (Registry.resolve fetch st rs).1 = .ok ⟨ref.message, mt⟩ := by
  unfold Registry.resolve
  rw [hp]
  dsimp only
  rw [hpool]
  dsimp only
  rw [hc]
  dsimp only
  rw [hf]
  dsimp only [resolveFromSet]
  rw [addFileDescriptors_fresh st.pool fds hfresh hnodup hsym hpair]
  obtain ⟨mt, hfind⟩ := FindMessageTypeByName_of_mem fds.file ref.message hmem
  refine ⟨mt, ?_⟩
  unfold lookupAfterInsert
  rw [FindMessageTypeByName_append_of_none st.pool fds.file ref.message hpool, hfind]

theorem resolve_package_qualified_witness :
    ∃ mt, (Registry.resolve okFetch ⟨[], []⟩
      "buf.build/acme/tools/acme.tools.v1.WebSearchRequest").1 =
      .ok ⟨"acme.tools.v1.WebSearchRequest", mt⟩ :=
  resolve_package_qualified okFetch ⟨[], []⟩
    "buf.build/acme/tools/acme.tools.v1.WebSearchRequest"
    ⟨"acme", "tools", "acme.tools.v1.WebSearchRequest", "main"⟩ wsFds
    (by rfl) (by rfl) (by rfl) (by rfl)
    (by intro fd hfd g hg; exact absurd hg (List.not_mem_nil g))
    (by decide)
    (by intro fd hfd g hg; exact absurd hg (List.not_mem_nil g))
    (by simp [wsFds])
    ⟨wsFile, by decide, ⟨"WebSearchRequest"⟩, by decide, by decide⟩

-- ## Claims about idempotence and unpack (C7, C8)

/-- C7: idempotent resolve — after a first successful `resolve`, a second
`resolve` of the same reference string is answered by the direct pool
lookup: it performs no fetch (`didFetch = false`), leaves the registry
state unchanged, and returns the same handle (hence the same decode
behaviour), so two calls perform at most one external fetch. -/
theorem resolve_idempotent (fetch : BSRRef → Except FetchError FileDescriptorSet)
    (st st1 : Registry) (rs : String) (h : MessageClass) (b : Bool)
    (hr : Registry.resolve fetch st rs = (.ok h, st1, b)) :
    Registry.resolve fetch st1 rs = (.ok h, st1, false) := by
  obtain ⟨ref, hp, hname, hfind⟩ := resolve_ok fetch st rs h st1 b hr
  unfold Registry.resolve
  rw [hp]
  dsimp only
  rw [hfind]
  obtain ⟨tn, d⟩ := h
  dsimp only at hname
  subst hname
  rfl

theorem resolve_idempotent_witness :
    Registry.resolve okFetch ⟨[wsFile], [("acme/tools@main", wsFds)]⟩
      "buf.build/acme/tools/acme.tools.v1.WebSearchRequest" =
    (.ok ⟨"acme.tools.v1.WebSearchRequest", ⟨"WebSearchRequest"⟩⟩,
     ⟨[wsFile], [("acme/tools@main", wsFds)]⟩, false) :=
  resolve_idempotent okFetch ⟨[], []⟩ ⟨[wsFile], [("acme/tools@main", wsFds)]⟩
    "buf.build/acme/tools/acme.tools.v1.WebSearchRequest"
    ⟨"acme.tools.v1.WebSearchRequest", ⟨"WebSearchRequest"⟩⟩ true (by rfl)

/-- C8: `unpack` extracts the type name as the segment of the tagged
value's type-url after the final `/`, fails with `TypeNotFound` exactly
when that name is absent from the pool, and otherwise decodes the raw
bytes as that type.  `unpack` takes no fetch collaborator and returns no
modified state: it cannot fetch and leaves the TypeCatalog and
DescriptorCache untouched by construction. -/
theorem unpack_spec (st : Registry) (a : AnyMsg) :
    (Registry.unpack st a =
        .error (.typeNotFound (((pySplit '/' a.type_url.data).getLastD []).asString)) ↔
      FindMessageTypeByName st.pool
        (((pySplit '/' a.type_url.data).getLastD []).asString) = none) ∧
    (∀ mt, FindMessageTypeByName st.pool
        (((pySplit '/' a.type_url.data).getLastD []).asString) = some mt →
      Registry.unpack st a =
        .ok ⟨⟨((pySplit '/' a.type_url.data).getLastD []).asString, mt⟩, a.value⟩) := by
  constructor
  · constructor
    · intro he
      rcases hf : FindMessageTypeByName st.pool
          (((pySplit '/' a.type_url.data).getLastD []).asString) with _ | mt
      · rfl
      · exfalso
        unfold Registry.unpack at he
        dsimp only at he
        rw [hf] at he
        dsimp only at he
        exact Except.noConfusion he
    · intro hf
      unfold Registry.unpack
      dsimp only
      rw [hf]
  · intro mt hf
    unfold Registry.unpack
    dsimp only
    rw [hf]

theorem unpack_spec_witness :
    Registry.unpack ⟨[wsFile], []⟩
      ⟨"type.googleapis.com/acme.tools.v1.WebSearchRequest", [1, 2]⟩ =
    .ok ⟨⟨"acme.tools.v1.WebSearchRequest", ⟨"WebSearchRequest"⟩⟩, [1, 2]⟩ :=
  (unpack_spec ⟨[wsFile], []⟩
    ⟨"type.googleapis.com/acme.tools.v1.WebSearchRequest", [1, 2]⟩).2
    ⟨"WebSearchRequest"⟩ (by rfl)
